import Mathlib

/-!
Verification of the Vinyl Collection Manager (FastAPI application).

This file shallowly embeds the data model and operations of the
application: the persisted `Album` and `User` records (app/models.py),
the data-access layer (app/crud.py) and the request handlers and
validation helpers (app/main.py).  The database is modelled as an
explicit list of records threaded through the operations; SQL queries
(`filter`, `first`, `order_by`, `offset`, `limit`, `ilike`) are
translated into the corresponding list operations, and `HTTPException`
into `Except` values carrying the HTTP status code.
-/

/-! ## String helpers

Python string primitives used by the handlers, translated over `List Char`
(one element per code point, matching Python's `len` and slicing). -/

/-- Python ASCII whitespace predicate used by `str.strip`. -/
def pyIsSpace (c : Char) : Bool :=
  c == ' ' || c == '\t' || c == '\n' || c == '\r' ||
  c == Char.ofNat 11 || c == Char.ofNat 12

/-- Translation of Python `str.strip()`: remove leading and trailing
whitespace. -/
def pyStrip (l : List Char) : List Char :=
  ((l.dropWhile pyIsSpace).reverse.dropWhile pyIsSpace).reverse

/-- Translation of the composite Python expression `s.split(c)[-1]`:
the suffix of `l` after the last occurrence of `c` (all of `l` when `c`
does not occur). -/
def splitLast (c : Char) : List Char → List Char
  | [] => []
  | x :: xs =>
    if xs.contains c then splitLast c xs
    else if x = c then xs
    else x :: splitLast c xs

/-- Lower-case a character list (`Char.toLower` per code point). -/
def lowerL (l : List Char) : List Char := l.map Char.toLower

/-- Decidable check that `needle` is a prefix of `hay`. -/
def subAt : List Char → List Char → Bool
  | [], _ => true
  | _ :: _, [] => false
  | c :: cs, d :: ds => c == d && subAt cs ds

/-- Decidable check that `needle` occurs as a contiguous substring of
`hay`. -/
def subIn : List Char → List Char → Bool
  | needle, [] => subAt needle []
  | needle, d :: ds => subAt needle (d :: ds) || subIn needle ds

/-- SQL `ILIKE` pattern matching, as applied by SQLAlchemy's
`Column.ilike`: `%` matches any (possibly empty) character sequence,
`_` matches exactly one character, and every other pattern character
matches case-insensitively. -/
def ilikeMatch : List Char → List Char → Bool
  | [], s => s.isEmpty
  | p :: ps, s =>
    if p = '%' then s.tails.any (fun t => ilikeMatch ps t)
    else
      match s with
      | [] => false
      | c :: cs => (p = '_' || p.toLower == c.toLower) && ilikeMatch ps cs

/-- The pattern built by `crud.search_albums` for a query string:
the f-string interpolation `f"%{query}%"`. -/
def likePat (q : String) : List Char := '%' :: (q.data ++ ['%'])

/-- A column value `s` matches the search pattern `p` (SQL `ILIKE`). -/
def ilike (s : String) (p : List Char) : Bool := ilikeMatch p s.data

/-- Case-insensitive substring containment, the search semantics stated
by the specification: `q` occurs in `hay` ignoring case. -/
def containsCI (hay q : String) : Bool := subIn (lowerL q.data) (lowerL hay.data)

/-! ## Data model (app/models.py) -/

/-- The persisted `Album` row: required `title`/`artist`, optional
descriptive columns (database `NULL` = `none`), a creation timestamp and
the owning user's id. -/
structure Album where
  id : Nat
  title : String
  artist : String
  genre : Option String := none
  release_year : Option Int := none
  record_label : Option String := none
  country : Option String := none
  condition : Option String := none
  barcode : Option String := none
  notes : Option String := none
  created_at : Nat := 0
  owner_id : Nat
deriving DecidableEq, Repr

/-- The persisted `User` row (the fields the handlers read). -/
structure UserRec where
  email : String
  username : String
  hashed_password : String
deriving DecidableEq, Repr

/-- The keyword-argument dictionary `**album_data` passed from the
handlers to `create_album` / `update_album`: a key absent from the
dictionary is `none`. -/
structure AlbumData where
  title : Option String := none
  artist : Option String := none
  genre : Option String := none
  release_year : Option Int := none
  record_label : Option String := none
  country : Option String := none
  condition : Option String := none
  barcode : Option String := none
  notes : Option String := none
deriving DecidableEq, Repr

/-- The album table together with the autoincrement counter for the
primary key. -/
structure Store where
  albums : List Album := []
  nextId : Nat := 0
deriving DecidableEq, Repr

/-! ## Data-access layer (app/crud.py) -/

/-- `crud.get_albums`: the requesting user's albums ordered by
`created_at` descending (SQL `ORDER BY ... DESC`), with `OFFSET skip`
and `LIMIT limit` (defaults 0 and 100). -/
def createdDesc (a b : Album) : Prop := b.created_at ≤ a.created_at

instance : DecidableRel createdDesc := fun a b => Nat.decLe b.created_at a.created_at

instance : IsTotal Album createdDesc :=
  ⟨fun a b => Or.symm (Nat.le_total a.created_at b.created_at)⟩

instance : IsTrans Album createdDesc :=
  ⟨fun _ _ _ h1 h2 => Nat.le_trans h2 h1⟩

def get_albums (albums : List Album) (user_id : Nat)
    (skip : Nat := 0) (limit : Nat := 100) : List Album :=
  ((List.insertionSort createdDesc
      (albums.filter (fun a => a.owner_id == user_id))).drop skip).take limit

/-- `crud.get_album_by_id`: first album matching both the id and the
owner filters; `HTTPException(404)` when there is none. -/
def get_album_by_id (albums : List Album) (album_id user_id : Nat) :
    Except Nat Album :=
  match albums.find? (fun a => a.id == album_id && a.owner_id == user_id) with
  | none => Except.error 404
  | some a => Except.ok a

/-- `crud.create_album`: insert `Album(owner_id=user_id, **album_data)`.
Columns absent from `album_data` take their defaults (`NULL`); the
primary key is assigned by the database and `created_at` defaults to the
current time, passed here as `now`.  The handlers always supply `title`
and `artist` (non-nullable columns), so the `getD` fallbacks are never
exercised by any route. -/
def create_album (s : Store) (user_id : Nat) (d : AlbumData) (now : Nat) :
    Store × Album :=
  let a : Album :=
    { id := s.nextId
      title := d.title.getD ""
      artist := d.artist.getD ""
      genre := d.genre
      release_year := d.release_year
      record_label := d.record_label
      country := d.country
      condition := d.condition
      barcode := d.barcode
      notes := d.notes
      created_at := now
      owner_id := user_id }
  (⟨s.albums ++ [a], s.nextId + 1⟩, a)

/-- The `setattr` loop of `crud.update_album`: every key present in
`album_data` with a non-`None` value overwrites the stored column; the
other columns keep their values. -/
def applyUpdate (a : Album) (d : AlbumData) : Album :=
  { a with
    title := d.title.getD a.title
    artist := d.artist.getD a.artist
    genre := match d.genre with | some v => some v | none => a.genre
    release_year := match d.release_year with | some v => some v | none => a.release_year
    record_label := match d.record_label with | some v => some v | none => a.record_label
    country := match d.country with | some v => some v | none => a.country
    condition := match d.condition with | some v => some v | none => a.condition
    barcode := match d.barcode with | some v => some v | none => a.barcode
    notes := match d.notes with | some v => some v | none => a.notes }

/-- Replace the first element satisfying `p` by its image under `f`. -/
def updateFirst (p : Album → Bool) (f : Album → Album) : List Album → List Album
  | [] => []
  | b :: rest => if p b then f b :: rest else b :: updateFirst p f rest

/-- Remove the first element satisfying `p`. -/
def removeFirst (p : Album → Bool) : List Album → List Album
  | [] => []
  | b :: rest => if p b then rest else b :: removeFirst p rest

/-- `crud.update_album`: look the album up (raising 404 when absent, in
which case nothing has been written), then overwrite the non-`None`
submitted fields and commit.  Returns the resulting table and the
outcome. -/
def update_album (albums : List Album) (album_id user_id : Nat)
    (d : AlbumData) : List Album × Except Nat Album :=
  match get_album_by_id albums album_id user_id with
  | Except.error e => (albums, Except.error e)
  | Except.ok a =>
      (updateFirst (fun b => b.id == album_id && b.owner_id == user_id)
        (fun b => applyUpdate b d) albums,
       Except.ok (applyUpdate a d))

/-- `crud.delete_album`: look the album up (raising 404 when absent),
then delete it and commit. -/
def delete_album (albums : List Album) (album_id user_id : Nat) :
    List Album × Except Nat Bool :=
  match get_album_by_id albums album_id user_id with
  | Except.error e => (albums, Except.error e)
  | Except.ok _ =>
      (removeFirst (fun b => b.id == album_id && b.owner_id == user_id) albums,
       Except.ok true)

/-- `crud.search_albums`: albums of the requesting user whose title,
artist or genre matches `ILIKE '%' + query + '%'` (a `NULL` genre
matches nothing). -/
def search_albums (albums : List Album) (user_id : Nat) (query : String) :
    List Album :=
  albums.filter (fun a =>
    a.owner_id == user_id &&
    (ilike a.title (likePat query) || ilike a.artist (likePat query) ||
     (match a.genre with
      | some g => ilike g (likePat query)
      | none => false)))

/-- `crud.get_user_by_email`. -/
def get_user_by_email (users : List UserRec) (email : String) : Option UserRec :=
  users.find? (fun u => u.email == email)

/-- `crud.get_user_by_username`. -/
def get_user_by_username (users : List UserRec) (username : String) : Option UserRec :=
  users.find? (fun u => u.username == username)

/-- `crud.create_user`: explicit duplicate lookup first — when a user
with the same email or username exists, `HTTPException(400)` is raised
before anything is inserted; otherwise the new row (with the hashed
password) is inserted and committed.  `hash` abstracts
`auth.get_password_hash`. -/
def create_user (users : List UserRec) (email username password : String)
    (hash : String → String) : List UserRec × Except Nat UserRec :=
  if (get_user_by_email users email).isSome ||
     (get_user_by_username users username).isSome then
    (users, Except.error 400)
  else
    (users ++ [⟨email, username, hash password⟩],
     Except.ok ⟨email, username, hash password⟩)

/-! ## Validation helpers (app/main.py) -/

/-- Error message for a malformed email. -/
def emailErrMsg : String := "Некорректный email адрес"

/-- Error message for a too-short username. -/
def userShortMsg : String := "Имя пользователя должно содержать минимум 3 символа"

/-- Error message for a too-long username. -/
def userLongMsg : String := "Имя пользователя слишком длинное (максимум 50 символов)"

/-- Error message for a too-short password. -/
def passShortMsg : String := "Пароль должен содержать минимум 6 символов"

/-- Error message for a too-long password. -/
def passLongMsg : String := "Пароль слишком длинный (максимум 72 символа)"

/-- Error message for a password/confirmation mismatch. -/
def passMismatchMsg : String := "Пароли не совпадают"

/-- `main.validate_user_registration`: all four rule groups are checked
and their messages collected into one list (no short-circuiting between
groups).  The email rule is Python
`not email or "@" not in email or "." not in email.split("@")[-1]`. -/
def validate_user_registration (email username password confirm_password : String) :
    List String :=
  (if email.data.isEmpty ∨ !(email.data.contains '@') ∨
      !((splitLast '@' email.data).contains '.') then [emailErrMsg] else []) ++
  (if username.data.isEmpty ∨ username.data.length < 3 then [userShortMsg]
   else if username.data.length > 50 then [userLongMsg] else []) ++
  (if password.data.isEmpty ∨ password.data.length < 6 then [passShortMsg]
   else if password.data.length > 72 then [passLongMsg] else []) ++
  (if password ≠ confirm_password then [passMismatchMsg] else [])

/-- Error message for a missing album title. -/
def titleReqMsg : String := "Название альбома обязательно"

/-- Error message for a too-long album title. -/
def titleLongMsg : String := "Название альбома слишком длинное (максимум 200 символов)"

/-- Error message for a missing artist. -/
def artistReqMsg : String := "Исполнитель обязателен"

/-- Error message for a too-long artist. -/
def artistLongMsg : String := "Имя исполнителя слишком длинное (максимум 100 символов)"

/-- Error message for an out-of-range release year (an f-string naming
the current year). -/
def yearRangeMsg (current_year : Int) : String :=
  "Год выпуска должен быть между 1900 и " ++ toString current_year

/-- `main.validate_album_data`.  The blank checks are Python
`not s or len(s.strip()) == 0`; the length checks apply to the
unstripped strings; the year bound reads the clock
(`datetime.now().year`), passed here as `current_year`. -/
def validate_album_data (title artist : String) (release_year : Option Int)
    (current_year : Int) : List String :=
  (if title.data.isEmpty || (pyStrip title.data).isEmpty then [titleReqMsg]
   else if title.data.length > 200 then [titleLongMsg] else []) ++
  (if artist.data.isEmpty || (pyStrip artist.data).isEmpty then [artistReqMsg]
   else if artist.data.length > 100 then [artistLongMsg] else []) ++
  (match release_year with
   | some y => if y < 1900 ∨ y > current_year then [yearRangeMsg current_year] else []
   | none => [])

/-! ## HTML route handlers (app/main.py)

Each handler is modelled on an authenticated request (the
redirect-to-login branch for a missing cookie is not reachable in the
claims below).  The returned `Nat` is the HTTP status of the response
(303 for the post-success redirect, 422/400/404/500 for the rendered
error pages). -/

/-- The per-field expression `value.strip() if value else None` of the
album form handlers: a missing or empty submission becomes `None`
(and is then dropped from `album_data` by the `is not None` filter); a
non-empty submission is stripped. -/
def stripOpt (v : Option String) : Option String :=
  match v with
  | none => none
  | some s => if s.data.isEmpty then none else some (String.mk (pyStrip s.data))

/-- The `album_data` dictionary built by `create_new_album` and
`edit_album` (main.py lines 417-429 and 529-541) after the
`is not None` filter: `title`/`artist` stripped and always present,
the five optional string fields stripped with empty treated as missing,
`release_year` passed through, and `condition` passed through exactly
as submitted. -/
def buildAlbumData (title artist : String) (genre : Option String)
    (release_year : Option Int)
    (record_label country condition barcode notes : Option String) : AlbumData :=
  { title := some (String.mk (pyStrip title.data))
    artist := some (String.mk (pyStrip artist.data))
    genre := stripOpt genre
    release_year := release_year
    record_label := stripOpt record_label
    country := stripOpt country
    condition := condition
    barcode := stripOpt barcode
    notes := stripOpt notes }

/-- `main.create_new_album` (POST /albums/new): validate, then insert
and redirect to the new album's page. -/
def create_new_album (s : Store) (user_id : Nat) (title artist : String)
    (genre : Option String) (release_year : Option Int)
    (record_label country condition barcode notes : Option String)
    (current_year : Int) (now : Nat) : Store × Nat :=
  if validate_album_data title artist release_year current_year ≠ [] then
    (s, 422)
  else
    let r := create_album s user_id
      (buildAlbumData title artist genre release_year record_label country
        condition barcode notes) now
    (r.1, 303)

/-- `main.edit_album` (POST /albums/{id}/edit): validate, then update
and redirect; an `HTTPException` from the lookup (404 for a missing or
foreign album) is rendered with its status code and leaves the store
unchanged. -/
def edit_album (s : Store) (user_id album_id : Nat) (title artist : String)
    (genre : Option String) (release_year : Option Int)
    (record_label country condition barcode notes : Option String)
    (current_year : Int) : Store × Nat :=
  if validate_album_data title artist release_year current_year ≠ [] then
    (s, 422)
  else
    match update_album s.albums album_id user_id
      (buildAlbumData title artist genre release_year record_label country
        condition barcode notes) with
    | (albums', Except.ok _) => ({ s with albums := albums' }, 303)
    | (_, Except.error e) => (s, e)

/-- `main.album_detail_page` (GET /albums/{id}): renders the album, or
the 404 error page when the owner-scoped lookup raises. -/
def album_detail_page (s : Store) (user_id album_id : Nat) : Nat :=
  match get_album_by_id s.albums album_id user_id with
  | Except.ok _ => 200
  | Except.error _ => 404

/-- `main.delete_album_endpoint` (POST /albums/{id}/delete): calls
`crud.delete_album` inside `try/except Exception`; both on success and
on any exception (including the 404 `HTTPException`) it responds with a
303 redirect to the album list. -/
def delete_album_endpoint (s : Store) (user_id album_id : Nat) : Store × Nat :=
  match delete_album s.albums album_id user_id with
  | (albums', Except.ok _) => ({ s with albums := albums' }, 303)
  | (_, Except.error _) => (s, 303)

/-- `main.albums_page` (GET /albums): searches when a non-empty `q` is
supplied (Python `if q:` — an empty string is falsy), otherwise lists. -/
def albums_page (s : Store) (user_id : Nat) (q : Option String) : List Album :=
  match q with
  | some qs => if qs.data.isEmpty then get_albums s.albums user_id else search_albums s.albums user_id qs
  | none => get_albums s.albums user_id

/-- `main.register_user` (POST /register): collect validation errors
(422), then the duplicate lookup (400), then insert inside `try`; on an
exception during the insert the handler calls `db.rollback()` — the
store reverts to its pre-transaction contents — and renders a 500 page.
`insert_ok` selects whether the insert step raises. -/
def register_user (users : List UserRec)
    (email username password confirm_password : String)
    (hash : String → String) (insert_ok : Bool) : List UserRec × Nat :=
  if validate_user_registration email username password confirm_password ≠ [] then
    (users, 422)
  else if (get_user_by_email users email).isSome ||
          (get_user_by_username users username).isSome then
    (users, 400)
  else if insert_ok then
    (users ++ [⟨email, username, hash password⟩], 303)
  else
    (users, 500)

/-- The page title prefix of the generic 500 error page. -/
def serverErrPrefix : String := "Внутренняя ошибка сервера: "

/-- `main.general_exception_handler`: the catch-all handler renders a
500 page whose message is the exception text truncated to 200
characters, with `"..."` appended when truncation happened. -/
def general_exception_handler (exc : String) : Nat × String :=
  let error_message :=
    if exc.data.length > 200 then String.mk (exc.data.take 200 ++ "...".data)
    else exc
  (500, serverErrPrefix ++ error_message)

/-- The fixed error message of `create_new_album`'s local `except
Exception` branch. -/
def createErrMsg : String := "Ошибка при создании альбома"

/-- The fixed error message of `edit_album`'s local `except Exception`
branch. -/
def updateErrMsg : String := "Ошибка при обновлении альбома"

/-- The fixed error message of `register_user`'s local `except` branch. -/
def registerErrMsg : String := "Произошла ошибка при регистрации"

/-- The `except Exception` branch of `main.create_new_album` (lines
435-454): an unexpected exception raised during the insert is caught by
the handler itself, never reaching the app-level catch-all; the
exception text `exc` is only logged, the rendered 500 page carries the
fixed message, and no rollback is attempted (the store is whatever the
failed insert left uncommitted).  Components: store, status, rendered
message. -/
def create_new_album_exc (s : Store) (_exc : String) : Store × Nat × String :=
  (s, 500, createErrMsg)

/-- The `except Exception` branch of `main.edit_album` (lines 554-574):
same shape — local catch, fixed message, 500, no rollback. -/
def edit_album_exc (s : Store) (_exc : String) : Store × Nat × String :=
  (s, 500, updateErrMsg)

/-- The `except Exception` branch of `main.delete_album_endpoint` (lines
590-592): an unexpected exception during delete handling is answered
with a 303 redirect to the album list — no 500 page at all. -/
def delete_album_endpoint_exc (s : Store) (_exc : String) : Store × Nat :=
  (s, 303)

/-! ## Traces of store-mutating operations

Used to state the reachable-state ownership invariant: every album's
owner is the authenticated user of the create request that inserted it,
and no exposed operation ever rewrites an owner. -/

/-- One store-mutating request: album creation, edit or deletion, each
on behalf of an authenticated user. -/
inductive Op where
  | create (uid : Nat) (d : AlbumData) (now : Nat)
  | update (uid : Nat) (album_id : Nat) (d : AlbumData)
  | delete (uid : Nat) (album_id : Nat)
deriving DecidableEq, Repr

/-- Effect of one operation on the store. -/
def stepOp (s : Store) : Op → Store
  | Op.create uid d now => (create_album s uid d now).1
  | Op.update uid album_id d => { s with albums := (update_album s.albums album_id uid d).1 }
  | Op.delete uid album_id => { s with albums := (delete_album s.albums album_id uid).1 }

/-- Creation log: each create request appends the pair (assigned album
id, authenticated user). -/
def stepLog (s : Store) (log : List (Nat × Nat)) : Op → List (Nat × Nat)
  | Op.create uid _ _ => log ++ [(s.nextId, uid)]
  | _ => log

/-- Run a list of operations, threading the store and the creation log. -/
def execFrom (s : Store) (log : List (Nat × Nat)) : List Op → Store × List (Nat × Nat)
  | [] => (s, log)
  | op :: rest => execFrom (stepOp s op) (stepLog s log op) rest

/-- Run a list of operations from the empty database. -/
def execTrace (ops : List Op) : Store × List (Nat × Nat) :=
  execFrom ⟨[], 0⟩ [] ops

/-- Ownership invariant: every stored album is recorded in the creation
log with its current owner, ids never reach the autoincrement counter,
and the log holds at most one entry per album id. -/
def OwnerInv (s : Store) (log : List (Nat × Nat)) : Prop :=
  (∀ a ∈ s.albums, (a.id, a.owner_id) ∈ log ∧ a.id < s.nextId) ∧
  (∀ p ∈ log, p.1 < s.nextId) ∧
  (log.map Prod.fst).Nodup

/-! ## Specification-side definitions

Definitions written from the specification's words, used to compare the
code's behaviour against the stated contracts. -/

/-- The email rule as the claim states it: the email contains an `@`
with a `.` somewhere after it. -/
def claim_email_ok (email : String) : Prop :=
  ∃ s t, email.data = s ++ '@' :: t ∧ t.contains '.' = true

/-- The email rule the code implements: the part after the last `@`
(i.e. the domain part) contains a `.`. -/
def email_domain_ok (email : String) : Prop :=
  ∃ s t, email.data = s ++ '@' :: t ∧ t.contains '@' = false ∧ t.contains '.' = true

/-- The search semantics as the specification states it: albums of the
user whose title, artist or genre contains the query as a
case-insensitive substring. -/
def spec_search (albums : List Album) (user_id : Nat) (query : String) :
    List Album :=
  albums.filter (fun a =>
    a.owner_id == user_id &&
    (containsCI a.title query || containsCI a.artist query ||
     (match a.genre with
      | some g => containsCI g query
      | none => false)))

/-! ## Basic lemmas about the string helpers -/

theorem subAt_iff (n : List Char) : ∀ h : List Char, subAt n h = true ↔ ∃ t, h = n ++ t := by
  induction n with
  | nil => intro h; simp [subAt]
  | cons c cs ih =>
    intro h
    cases h with
    | nil => simp [subAt]
    | cons d ds =>
      simp only [subAt, Bool.and_eq_true, beq_iff_eq, ih]
      constructor
      · rintro ⟨rfl, t, rfl⟩
        exact ⟨t, rfl⟩
      · rintro ⟨t, ht⟩
        injection ht with h1 h2
        exact ⟨h1.symm, t, h2⟩

theorem subIn_iff (n : List Char) : ∀ h : List Char, subIn n h = true ↔ ∃ s t, h = s ++ n ++ t := by
  intro h
  induction h with
  | nil =>
    simp only [subIn, subAt_iff]
    constructor
    · rintro ⟨t, ht⟩
      exact ⟨[], t, ht⟩
    · rintro ⟨s, t, ht⟩
      rcases List.append_eq_nil.mp (List.append_eq_nil.mp ht.symm).1 with ⟨h1, h2⟩
      exact ⟨t, by simp [h2, (List.append_eq_nil.mp ht.symm).2]⟩
  | cons d ds ih =>
    simp only [subIn, Bool.or_eq_true, subAt_iff, ih]
    constructor
    · rintro (⟨t, ht⟩ | ⟨s, t, ht⟩)
      · exact ⟨[], t, by simp [ht]⟩
      · exact ⟨d :: s, t, by simp [ht]⟩
    · rintro ⟨s, t, ht⟩
      cases s with
      | nil => exact Or.inl ⟨t, by simpa using ht⟩
      | cons x xs =>
        injection ht with h1 h2
        exact Or.inr ⟨xs, t, h2⟩

theorem pyStrip_eq_nil_iff (l : List Char) :
    pyStrip l = [] ↔ ∀ c ∈ l, pyIsSpace c = true := by
  unfold pyStrip
  rw [List.reverse_eq_nil_iff, List.dropWhile_eq_nil_iff]
  constructor
  · intro hrev c hc
    by_cases hsp : pyIsSpace c = true
    · exact hsp
    · exfalso
      have hdl : l.dropWhile pyIsSpace = [] ∨ l.dropWhile pyIsSpace ≠ [] := em _
      rcases hdl with hnil | hne
      · have := List.dropWhile_eq_nil_iff.mp hnil c hc
        exact hsp this
      · have hmem : c ∈ l.takeWhile pyIsSpace ∨ c ∈ l.dropWhile pyIsSpace := by
          have := List.takeWhile_append_dropWhile pyIsSpace l
          rw [← this] at hc
          exact List.mem_append.mp hc
        rcases hmem with hm | hm
        · exact hsp (List.mem_takeWhile_imp hm)
        · exact hsp (hrev c (List.mem_reverse.mpr hm))
  · intro hall c hc
    rw [List.mem_reverse] at hc
    exact hall c ((List.dropWhile_sublist pyIsSpace).mem hc)

theorem splitLast_of_not_contains {c : Char} {l : List Char}
    (h : l.contains c = false) : splitLast c l = l := by
  induction l with
  | nil => rfl
  | cons x xs ih =>
    rw [List.contains_cons, Bool.or_eq_false_iff] at h
    obtain ⟨hx, hxs⟩ := h
    simp only [splitLast]
    rw [hxs, if_neg (by simp)]
    rw [if_neg (fun hxc => by simp [hxc] at hx), ih hxs]

theorem contains_iff_mem {c : Char} {l : List Char} : l.contains c = true ↔ c ∈ l :=
  List.elem_iff

theorem splitLast_append (s : List Char) {c : Char} {t : List Char}
    (h : t.contains c = false) : splitLast c (s ++ c :: t) = t := by
  induction s with
  | nil =>
    rw [List.nil_append]
    simp only [splitLast]
    rw [h]
    simp
  | cons x xs ih =>
    have hcont : (xs ++ c :: t).contains c = true :=
      contains_iff_mem.mpr (List.mem_append.mpr (Or.inr (List.mem_cons_self c t)))
    show splitLast c (x :: (xs ++ c :: t)) = t
    simp only [splitLast]
    rw [hcont, if_pos rfl, ih]

theorem splitLast_decomp {c : Char} {l : List Char} (h : l.contains c = true) :
    ∃ s t, l = s ++ c :: t ∧ t.contains c = false ∧ splitLast c l = t := by
  induction l with
  | nil => simp [List.contains_cons] at h
  | cons x xs ih =>
    by_cases hxs : xs.contains c = true
    · obtain ⟨s, t, heq, hnc, hres⟩ := ih hxs
      refine ⟨x :: s, t, by simp [heq], hnc, ?_⟩
      simp only [splitLast]
      rw [hxs, if_pos rfl, hres]
    · have hx : x = c := by
        rw [List.contains_cons, Bool.or_eq_true] at h
        rcases h with h | h
        · exact (beq_iff_eq.mp h).symm
        · exact absurd h hxs
      refine ⟨[], xs, by simp [hx], by simpa using hxs, ?_⟩
      simp only [splitLast]
      rw [Bool.not_eq_true] at hxs
      rw [hxs, if_neg (by simp), if_pos hx]

theorem nonblank_iff (l : List Char) :
    (l.isEmpty || (pyStrip l).isEmpty) = false ↔ ∃ c ∈ l, pyIsSpace c = false := by
  rw [Bool.or_eq_false_iff]
  constructor
  · rintro ⟨h1, h2⟩
    have h2' : pyStrip l ≠ [] := by
      intro hh
      rw [hh] at h2
      simp at h2
    by_contra hno
    push_neg at hno
    apply h2'
    rw [pyStrip_eq_nil_iff]
    intro c hc
    have hx := hno c hc
    revert hx
    cases pyIsSpace c <;> simp
  · rintro ⟨c, hc, hcf⟩
    refine ⟨?_, ?_⟩
    · have hne : l ≠ [] := List.ne_nil_of_mem hc
      revert hne
      cases l <;> simp
    · have hne : pyStrip l ≠ [] := by
        intro hh
        have := (pyStrip_eq_nil_iff l).mp hh c hc
        rw [this] at hcf
        cases hcf
      revert hne
      cases hps : pyStrip l <;> simp

theorem optValidate_nil_iff (l : List Char) (m1 m2 : String) (bound : Nat) :
    ((if l.isEmpty || (pyStrip l).isEmpty then [m1]
      else if l.length > bound then [m2] else []) = []) ↔
    ((∃ c ∈ l, pyIsSpace c = false) ∧ l.length ≤ bound) := by
  by_cases h1 : (l.isEmpty || (pyStrip l).isEmpty) = true
  · rw [if_pos h1]
    have hno : ¬ ∃ c ∈ l, pyIsSpace c = false := by
      intro hex
      rw [← nonblank_iff l] at hex
      rw [hex] at h1
      cases h1
    simp [hno]
  · rw [if_neg h1]
    have hb : (l.isEmpty || (pyStrip l).isEmpty) = false := by
      revert h1
      cases l.isEmpty || (pyStrip l).isEmpty <;> simp
    have hyes := (nonblank_iff l).mp hb
    by_cases h2 : l.length > bound
    · rw [if_pos h2]
      simp only [List.cons_ne_nil, false_iff]
      rintro ⟨-, hlen⟩
      omega
    · rw [if_neg h2]
      simp only [eq_self_iff_true, true_iff]
      exact ⟨hyes, by omega⟩

theorem yearValidate_nil_iff (ry : Option Int) (cy : Int) :
    ((match ry with
      | some y => if y < 1900 ∨ y > cy then [yearRangeMsg cy] else []
      | none => ([] : List String)) = []) ↔
    (∀ y, ry = some y → 1900 ≤ y ∧ y ≤ cy) := by
  cases ry with
  | none => simp
  | some y =>
    by_cases h : y < 1900 ∨ y > cy
    · simp only [if_pos h, List.cons_ne_nil, false_iff]
      intro hall
      have := hall y rfl
      omega
    · simp only [if_neg h, true_iff]
      intro y' hy'
      injection hy' with hy'
      subst hy'
      omega

/-- C7: `validate_album_data` rejects its input exactly when the title is
missing/blank or longer than 200 characters, the artist is missing/blank
or longer than 100 characters, or a present release year lies outside
[1900, current calendar year]; boundary-valid inputs (title of exactly
200 characters, artist of exactly 100 characters, release year exactly
1900 or exactly the current year) are accepted. -/
theorem claim_C7 (title artist : String) (ry : Option Int) (cy : Int) :
    (validate_album_data title artist ry cy = [] ↔
      ((∃ c ∈ title.data, pyIsSpace c = false) ∧ title.data.length ≤ 200 ∧
       (∃ c ∈ artist.data, pyIsSpace c = false) ∧ artist.data.length ≤ 100 ∧
       (∀ y, ry = some y → 1900 ≤ y ∧ y ≤ cy))) ∧
    (1900 ≤ cy →
      (validate_album_data (String.mk (List.replicate 200 'a'))
        (String.mk (List.replicate 100 'b')) (some 1900) cy = [] ∧
       validate_album_data "t" "a" (some cy) cy = [])) := by
  have key : ∀ (t a : String) (r : Option Int),
      validate_album_data t a r cy = [] ↔
      ((∃ c ∈ t.data, pyIsSpace c = false) ∧ t.data.length ≤ 200 ∧
       (∃ c ∈ a.data, pyIsSpace c = false) ∧ a.data.length ≤ 100 ∧
       (∀ y, r = some y → 1900 ≤ y ∧ y ≤ cy)) := by
    intro t a r
    unfold validate_album_data
    rw [List.append_eq_nil, List.append_eq_nil]
    rw [optValidate_nil_iff, optValidate_nil_iff, yearValidate_nil_iff]
    tauto
  refine ⟨key title artist ry, fun hcy => ⟨?_, ?_⟩⟩
  · refine (key _ _ _).mpr ⟨⟨'a', ?_, rfl⟩, ?_, ⟨'b', ?_, rfl⟩, ?_, ?_⟩
    · show 'a' ∈ List.replicate 200 'a'
      exact List.mem_replicate.mpr ⟨by omega, rfl⟩
    · show (List.replicate 200 'a').length ≤ 200
      rw [List.length_replicate]
    · show 'b' ∈ List.replicate 100 'b'
      exact List.mem_replicate.mpr ⟨by omega, rfl⟩
    · show (List.replicate 100 'b').length ≤ 100
      rw [List.length_replicate]
    · intro y hy
      injection hy with hy
      omega
  · refine (key _ _ _).mpr ⟨⟨'t', by decide, rfl⟩, by decide, ⟨'a', by decide, rfl⟩, by decide, ?_⟩
    intro y hy
    injection hy with hy
    omega

/-- Witness for C7: concrete boundary-valid and ordinary inputs are
accepted. -/
theorem claim_C7_witness :
    validate_album_data "Abbey Road" "The Beatles" (some 1969) 2024 = [] ∧
    validate_album_data "t" "a" (some 2024) 2024 = [] := by
  refine ⟨?_, ((claim_C7 "t" "a" (some 2024) 2024).2 (by omega)).2⟩
  refine (claim_C7 "Abbey Road" "The Beatles" (some 1969) 2024).1.mpr
    ⟨⟨'A', by decide, rfl⟩, by decide, ⟨'T', by decide, rfl⟩, by decide, ?_⟩
  intro y hy
  injection hy with hy
  omega

/-! ## Claim C6: registration validation -/

theorem ifSingleton_nil_iff (p : Prop) [Decidable p] (m : String) :
    ((if p then [m] else []) = []) ↔ ¬ p := by
  split_ifs with h <;> simp [h]

theorem ifPair_nil_iff (p q : Prop) [Decidable p] [Decidable q] (m1 m2 : String) :
    ((if p then [m1] else if q then [m2] else []) = []) ↔ ¬ p ∧ ¬ q := by
  split_ifs with h1 h2 <;> simp_all

theorem email_cond_iff (email : String) :
    (¬ (email.data.isEmpty ∨ !(email.data.contains '@') ∨
        !((splitLast '@' email.data).contains '.'))) ↔ email_domain_ok email := by
  push_neg
  constructor
  · rintro ⟨-, hat, hdot⟩
    have hat' : email.data.contains '@' = true := by
      revert hat
      cases email.data.contains '@' <;> simp
    have hdot' : (splitLast '@' email.data).contains '.' = true := by
      revert hdot
      cases (splitLast '@' email.data).contains '.' <;> simp
    obtain ⟨s, t, heq, hnc, hres⟩ := splitLast_decomp hat'
    rw [hres] at hdot'
    exact ⟨s, t, heq, hnc, hdot'⟩
  · rintro ⟨s, t, heq, hnc, hdot⟩
    have hat : email.data.contains '@' = true := by
      rw [heq]
      exact contains_iff_mem.mpr (List.mem_append.mpr (Or.inr (List.mem_cons_self _ _)))
    have hdot' : (splitLast '@' email.data).contains '.' = true := by
      rw [heq, splitLast_append s hnc]
      exact hdot
    refine ⟨?_, by rw [hat]; simp, by rw [hdot']; simp⟩
    intro hemp
    rw [List.isEmpty_iff] at hemp
    rw [hemp] at heq
    exact absurd heq.symm (by simp)

theorem lenGroup_iff (l : List Char) (lo hi : Nat) (hlo : 1 ≤ lo) :
    ((¬ (l.isEmpty ∨ l.length < lo)) ∧ ¬ (l.length > hi)) ↔
    (lo ≤ l.length ∧ l.length ≤ hi) := by
  constructor
  · rintro ⟨h1, h2⟩
    push_neg at h1
    exact ⟨by omega, by omega⟩
  · rintro ⟨h1, h2⟩
    refine ⟨?_, by omega⟩
    rintro (he | hl)
    · rw [List.isEmpty_iff] at he
      rw [he] at h1
      simp at h1
      omega
    · omega

/-- Counterexample to C6 as stated: the email `"a@b.c@d"` does contain
an `@` with a `.` somewhere after it (take the first `@`), yet the code
rejects it, because the code requires the `.` to occur after the *last*
`@` (`email.split("@")[-1]`).  All other fields are boundary-valid. -/
theorem claim_C6_counterexample :
    claim_email_ok "a@b.c@d" ∧
    validate_user_registration "a@b.c@d" "abc" "secret" "secret" ≠ [] := by
  constructor
  · exact ⟨['a'], ['b', '.', 'c', '@', 'd'], rfl, rfl⟩
  · decide

/-- C6, amended: `validate_user_registration` accepts iff the part after
the *last* `@` of the email contains a `.` (not merely a `.` anywhere
after an `@`), the username length is in [3,50], the password length is
in [6,72] and the password equals the confirmation; every violated rule
contributes its message to the returned list (violations are collected,
not short-circuited). -/
theorem claim_C6_amended (email username password confirm : String) :
    (validate_user_registration email username password confirm = [] ↔
      (email_domain_ok email ∧
       3 ≤ username.data.length ∧ username.data.length ≤ 50 ∧
       6 ≤ password.data.length ∧ password.data.length ≤ 72 ∧
       password = confirm)) ∧
    (¬ email_domain_ok email →
      emailErrMsg ∈ validate_user_registration email username password confirm) ∧
    (username.data.length < 3 →
      userShortMsg ∈ validate_user_registration email username password confirm) ∧
    (3 ≤ username.data.length → 50 < username.data.length →
      userLongMsg ∈ validate_user_registration email username password confirm) ∧
    (password.data.length < 6 →
      passShortMsg ∈ validate_user_registration email username password confirm) ∧
    (6 ≤ password.data.length → 72 < password.data.length →
      passLongMsg ∈ validate_user_registration email username password confirm) ∧
    (password ≠ confirm →
      passMismatchMsg ∈ validate_user_registration email username password confirm) := by
  refine ⟨?_, ?_, ?_, ?_, ?_, ?_, ?_⟩
  · unfold validate_user_registration
    rw [List.append_eq_nil, List.append_eq_nil, List.append_eq_nil]
    rw [ifSingleton_nil_iff, ifPair_nil_iff, ifPair_nil_iff, ifSingleton_nil_iff]
    rw [email_cond_iff]
    rw [show (¬ (username.data.isEmpty ∨ username.data.length < 3) ∧
          ¬ (username.data.length > 50)) ↔ _ from lenGroup_iff _ 3 50 (by omega),
        show (¬ (password.data.isEmpty ∨ password.data.length < 6) ∧
          ¬ (password.data.length > 72)) ↔ _ from lenGroup_iff _ 6 72 (by omega)]
    rw [not_ne_iff]
    tauto
  · intro hbad
    have hcond : (email.data.isEmpty ∨ !(email.data.contains '@') ∨
        !((splitLast '@' email.data).contains '.')) := by
      by_contra hc
      exact hbad ((email_cond_iff email).mp hc)
    unfold validate_user_registration
    rw [if_pos hcond]
    simp only [List.mem_append]
    exact Or.inl (Or.inl (Or.inl (List.mem_singleton.mpr rfl)))
  · intro hshort
    unfold validate_user_registration
    rw [if_pos (Or.inr hshort : (username.data.isEmpty ∨ username.data.length < 3))]
    simp only [List.mem_append]
    exact Or.inl (Or.inl (Or.inr (List.mem_singleton.mpr rfl)))
  · intro hge hlong
    have hno : ¬ (username.data.isEmpty ∨ username.data.length < 3) := by
      rintro (he | hl)
      · rw [List.isEmpty_iff] at he
        rw [he] at hge
        simp at hge
      · omega
    unfold validate_user_registration
    rw [if_neg hno, if_pos (show username.data.length > 50 by omega)]
    simp only [List.mem_append]
    exact Or.inl (Or.inl (Or.inr (List.mem_singleton.mpr rfl)))
  · intro hshort
    unfold validate_user_registration
    rw [if_pos (Or.inr hshort : (password.data.isEmpty ∨ password.data.length < 6))]
    simp only [List.mem_append]
    exact Or.inl (Or.inr (List.mem_singleton.mpr rfl))
  · intro hge hlong
    have hno : ¬ (password.data.isEmpty ∨ password.data.length < 6) := by
      rintro (he | hl)
      · rw [List.isEmpty_iff] at he
        rw [he] at hge
        simp at hge
      · omega
    unfold validate_user_registration
    rw [if_neg hno, if_pos (show password.data.length > 72 by omega)]
    simp only [List.mem_append]
    exact Or.inl (Or.inr (List.mem_singleton.mpr rfl))
  · intro hne
    unfold validate_user_registration
    rw [if_pos hne]
    simp only [List.mem_append]
    exact Or.inr (List.mem_singleton.mpr rfl)

/-- Witness for the amended C6: a valid registration (with a
boundary-length password of 72 characters and a username of length 3) is
accepted, and a rejected one carries the mismatch message. -/
theorem claim_C6_amended_witness :
    validate_user_registration "user@mail.com" "bob"
      (String.mk (List.replicate 72 'x')) (String.mk (List.replicate 72 'x')) = [] ∧
    passMismatchMsg ∈ validate_user_registration "user@mail.com" "bob" "secret" "other" := by
  constructor
  · refine (claim_C6_amended "user@mail.com" "bob" _ _).1.mpr
      ⟨⟨"user".data, "mail.com".data, rfl, rfl, rfl⟩, by decide, by decide, ?_, ?_, rfl⟩
    · show 6 ≤ (List.replicate 72 'x').length
      rw [List.length_replicate]
      omega
    · show (List.replicate 72 'x').length ≤ 72
      rw [List.length_replicate]
  · exact (claim_C6_amended "user@mail.com" "bob" "secret" "other").2.2.2.2.2.2 (by decide)

/-! ## Claims C8 and C9: registration uniqueness and failure handling -/

theorem dup_check_iff (users : List UserRec) (email username : String) :
    ((get_user_by_email users email).isSome ||
     (get_user_by_username users username).isSome) = true ↔
    ∃ u ∈ users, u.email = email ∨ u.username = username := by
  rw [Bool.or_eq_true]
  unfold get_user_by_email get_user_by_username
  rw [List.find?_isSome, List.find?_isSome]
  constructor
  · rintro (⟨u, hu, he⟩ | ⟨u, hu, hn⟩)
    · exact ⟨u, hu, Or.inl (beq_iff_eq.mp he)⟩
    · exact ⟨u, hu, Or.inr (beq_iff_eq.mp hn)⟩
  · rintro ⟨u, hu, he | hn⟩
    · exact Or.inl ⟨u, hu, beq_iff_eq.mpr he⟩
    · exact Or.inr ⟨u, hu, beq_iff_eq.mpr hn⟩

theorem dup_check_false (users : List UserRec) (email username : String)
    (hall : ∀ u ∈ users, u.email ≠ email ∧ u.username ≠ username) :
    ((get_user_by_email users email).isSome ||
     (get_user_by_username users username).isSome) = false := by
  cases hb : ((get_user_by_email users email).isSome ||
      (get_user_by_username users username).isSome) with
  | false => rfl
  | true =>
    obtain ⟨u, hu, hor⟩ := (dup_check_iff users email username).mp hb
    rcases hor with he | hn
    · exact absurd he (hall u hu).1
    · exact absurd hn (hall u hu).2

/-- C8: when a user with the given email or username already exists,
both the CRUD-level `create_user` and the `/register` handler reject the
request (400) and insert nothing — the store is returned unchanged; the
duplicate check is an explicit lookup performed before insertion.  When
no duplicate exists, `create_user` inserts the new row. -/
theorem claim_C8 (users : List UserRec) (email username password confirm : String)
    (hash : String → String) (insert_ok : Bool) :
    ((∃ u ∈ users, u.email = email ∨ u.username = username) →
      create_user users email username password hash = (users, Except.error 400) ∧
      (validate_user_registration email username password confirm = [] →
        register_user users email username password confirm hash insert_ok =
          (users, 400))) ∧
    ((∀ u ∈ users, u.email ≠ email ∧ u.username ≠ username) →
      create_user users email username password hash =
        (users ++ [⟨email, username, hash password⟩],
         Except.ok ⟨email, username, hash password⟩)) := by
  constructor
  · intro hex
    have hb := (dup_check_iff users email username).mpr hex
    constructor
    · unfold create_user
      rw [if_pos hb]
    · intro hval
      unfold register_user
      rw [if_neg (show ¬ (validate_user_registration email username password confirm ≠ [])
            from not_ne_iff.mpr hval)]
      rw [if_pos hb]
  · intro hall
    have hb := dup_check_false users email username hall
    unfold create_user
    rw [if_neg (by rw [hb]; simp)]

/-- Witness for C8: a duplicate email is rejected with the store
unchanged; a fresh registration is inserted. -/
theorem claim_C8_witness :
    create_user [⟨"a@b.c", "alice", "h"⟩] "a@b.c" "bob" "secret" id =
      ([⟨"a@b.c", "alice", "h"⟩], Except.error 400) ∧
    create_user [⟨"a@b.c", "alice", "h"⟩] "x@y.z" "bob" "secret" id =
      ([⟨"a@b.c", "alice", "h"⟩, ⟨"x@y.z", "bob", "secret"⟩],
       Except.ok ⟨"x@y.z", "bob", "secret"⟩) := by
  constructor
  · exact ((claim_C8 [⟨"a@b.c", "alice", "h"⟩] "a@b.c" "bob" "secret" "secret" id true).1
      ⟨⟨"a@b.c", "alice", "h"⟩, List.mem_singleton.mpr rfl, Or.inl rfl⟩).1
  · exact (claim_C8 [⟨"a@b.c", "alice", "h"⟩] "x@y.z" "bob" "secret" "secret" id true).2
      (by decide)

/-- Counterexample to C9 as stated: the claim demands that every
unexpected exception be shown as a generic 500 page carrying the
truncated exception text, after a rollback.  But an unexpected exception
`"boom"` raised while handling an album edit is caught by the handler's
own `except Exception` branch, which renders the fixed message — not the
truncated exception text — and performs no rollback; and the delete
endpoint answers an unexpected exception with a 303 redirect, not a 500
page at all. -/
theorem claim_C9_counterexample :
    (edit_album_exc ⟨[], 0⟩ "boom").2.1 = 500 ∧
    (edit_album_exc ⟨[], 0⟩ "boom").2.2 ≠ serverErrPrefix ++ "boom" ∧
    (delete_album_endpoint_exc ⟨[], 0⟩ "boom").2 = 303 := by
  refine ⟨rfl, ?_, rfl⟩
  decide

/-- C9, amended: only unexpected exceptions that reach the app-level
catch-all handler are rendered as a generic 500 page whose message is
the exception text truncated to 200 characters (ellipsis appended when
longer, payload never above 203 characters).  The album create and edit
handlers catch unexpected exceptions locally and render fixed messages
(500) that are never the truncated exception text, without rolling back;
the delete endpoint answers any exception with a 303 redirect; only the
register handler rolls back, returning the pre-transaction user table
with a 500 page. -/
theorem claim_C9_amended (exc : String) (s : Store) (users : List UserRec)
    (email username password confirm : String) (hash : String → String) :
    (general_exception_handler exc).1 = 500 ∧
    (exc.data.length ≤ 200 →
      (general_exception_handler exc).2 = serverErrPrefix ++ exc) ∧
    (200 < exc.data.length →
      (general_exception_handler exc).2 =
        serverErrPrefix ++ String.mk (exc.data.take 200 ++ "...".data)) ∧
    ((general_exception_handler exc).2.data.length ≤ serverErrPrefix.data.length + 203) ∧
    (create_new_album_exc s exc = (s, 500, createErrMsg) ∧
      (create_new_album_exc s exc).2.2 ≠ serverErrPrefix ++ exc) ∧
    (edit_album_exc s exc = (s, 500, updateErrMsg) ∧
      (edit_album_exc s exc).2.2 ≠ serverErrPrefix ++ exc) ∧
    (delete_album_endpoint_exc s exc = (s, 303)) ∧
    (validate_user_registration email username password confirm = [] →
      (∀ u ∈ users, u.email ≠ email ∧ u.username ≠ username) →
      register_user users email username password confirm hash false = (users, 500)) := by
  have hne : ∀ (m : String), m.data.head? = some 'О' →
      m ≠ serverErrPrefix ++ exc := by
    intro m hm h
    have hd : m.data = (serverErrPrefix ++ exc).data := congrArg String.data h
    rw [String.data_append] at hd
    have h1 : m.data.head? = (serverErrPrefix.data ++ exc.data).head? := by
      rw [hd]
    have h3 : (serverErrPrefix.data ++ exc.data).head? = some 'В' := rfl
    rw [hm, h3] at h1
    injection h1 with h1
    exact absurd h1 (by decide)
  refine ⟨?_, ?_, ?_, ?_, ⟨rfl, hne createErrMsg rfl⟩, ⟨rfl, hne updateErrMsg rfl⟩,
    rfl, ?_⟩
  · rfl
  · intro hle
    unfold general_exception_handler
    rw [if_neg (by omega)]
  · intro hgt
    unfold general_exception_handler
    rw [if_pos (by omega)]
  · unfold general_exception_handler
    by_cases h : exc.data.length > 200
    · rw [if_pos h]
      show (serverErrPrefix ++ String.mk (exc.data.take 200 ++ "...".data)).data.length ≤
        serverErrPrefix.data.length + 203
      rw [String.data_append]
      rw [List.length_append]
      have : (String.mk (exc.data.take 200 ++ "...".data)).data.length ≤ 203 := by
        show (exc.data.take 200 ++ "...".data).length ≤ 203
        rw [List.length_append, List.length_take]
        have : min 200 exc.data.length = 200 := by omega
        rw [this]
        rfl
      omega
    · rw [if_neg h]
      rw [String.data_append, List.length_append]
      omega
  · intro hval hall
    unfold register_user
    rw [if_neg (show ¬ (validate_user_registration email username password confirm ≠ [])
          from not_ne_iff.mpr hval)]
    rw [if_neg (by rw [dup_check_false users email username hall]; simp)]
    rfl

/-- Witness for the amended C9: a short exception reaching the catch-all
is shown untruncated with the 500 prefix; the edit handler's local
branch renders its fixed message instead; a failing insert on a fresh
registration leaves the user table unchanged. -/
theorem claim_C9_amended_witness :
    (general_exception_handler "boom").2 = serverErrPrefix ++ "boom" ∧
    (edit_album_exc ⟨[], 0⟩ "boom").2.2 = updateErrMsg ∧
    register_user [] "user@mail.com" "bob" "secret" "secret" id false = ([], 500) := by
  have h := claim_C9_amended "boom" ⟨[], 0⟩ [] "user@mail.com" "bob" "secret" "secret" id
  exact ⟨h.2.1 (by decide), congrArg (fun p => p.2.2) h.2.2.2.2.2.1.1,
    h.2.2.2.2.2.2.2 (by decide) (by intro u hu; cases hu)⟩

/-! ## Claims C1 and C5: owner-scoped access and partial edits -/

theorem albumPred_iff (album_id user_id : Nat) (a : Album) :
    ((a.id == album_id && a.owner_id == user_id) = true) ↔
    (a.id = album_id ∧ a.owner_id = user_id) := by
  rw [Bool.and_eq_true, beq_iff_eq, beq_iff_eq]

theorem removeFirst_length (p : Album → Bool) :
    ∀ l : List Album, (∃ b ∈ l, p b = true) →
    (removeFirst p l).length + 1 = l.length := by
  intro l hex
  induction l with
  | nil =>
    obtain ⟨b, hb, -⟩ := hex
    cases hb
  | cons x xs ih =>
    by_cases hx : p x = true
    · simp [removeFirst, hx]
    · have hex' : ∃ b ∈ xs, p b = true := by
        obtain ⟨b, hb, hpb⟩ := hex
        rcases List.mem_cons.mp hb with rfl | hbx
        · exact absurd hpb hx
        · exact ⟨b, hbx, hpb⟩
      simp only [removeFirst, if_neg hx, List.length_cons]
      rw [← ih hex']

/-- Counterexample to C1 as stated: user 1 deletes album 1, which is
owned by user 2.  The claim says the delete fails with a 404, but
`delete_album_endpoint` catches every exception (including the 404
`HTTPException`) and responds with a 303 redirect to the album list. -/
theorem claim_C1_counterexample :
    (∀ b ∈ [{ id := 1, title := "t", artist := "a", owner_id := 2 : Album }],
      ¬ (b.id = 1 ∧ b.owner_id = 1)) ∧
    delete_album_endpoint
      ⟨[{ id := 1, title := "t", artist := "a", owner_id := 2 : Album }], 2⟩ 1 1 =
      (⟨[{ id := 1, title := "t", artist := "a", owner_id := 2 : Album }], 2⟩, 303) := by
  exact ⟨by decide, rfl⟩

/-- C1, amended: when no album with the given id is owned by the
requesting user, fetching (GET page renders 404) and editing (404 page)
fail with a not-found error and the store is unchanged, and the
CRUD-level delete also raises 404 with the store unchanged — but the
delete endpoint swallows the exception and responds with a 303 redirect
(still leaving the store unchanged).  When such an album exists, the
operations succeed on that album. -/
theorem claim_C1_amended (s : Store) (album_id user_id : Nat) (d : AlbumData)
    (title artist : String) (genre : Option String) (ry : Option Int)
    (rl co cond bc nt : Option String) (cy : Int) :
    ((∀ a ∈ s.albums, ¬ (a.id = album_id ∧ a.owner_id = user_id)) →
      get_album_by_id s.albums album_id user_id = Except.error 404 ∧
      album_detail_page s user_id album_id = 404 ∧
      update_album s.albums album_id user_id d = (s.albums, Except.error 404) ∧
      (validate_album_data title artist ry cy = [] →
        edit_album s user_id album_id title artist genre ry rl co cond bc nt cy =
          (s, 404)) ∧
      delete_album s.albums album_id user_id = (s.albums, Except.error 404) ∧
      delete_album_endpoint s user_id album_id = (s, 303)) ∧
    ((∃ a ∈ s.albums, a.id = album_id ∧ a.owner_id = user_id) →
      ∃ a ∈ s.albums, a.id = album_id ∧ a.owner_id = user_id ∧
        get_album_by_id s.albums album_id user_id = Except.ok a ∧
        (update_album s.albums album_id user_id d).2 = Except.ok (applyUpdate a d) ∧
        (delete_album s.albums album_id user_id).2 = Except.ok true ∧
        (delete_album_endpoint s user_id album_id).1.albums.length + 1 =
          s.albums.length) := by
  constructor
  · intro hnone
    have hfind : s.albums.find?
        (fun a => a.id == album_id && a.owner_id == user_id) = none := by
      rw [List.find?_eq_none]
      intro x hx
      intro hpx
      exact hnone x hx ((albumPred_iff album_id user_id x).mp hpx)
    have hget : get_album_by_id s.albums album_id user_id = Except.error 404 := by
      unfold get_album_by_id
      rw [hfind]
    refine ⟨hget, ?_, ?_, ?_, ?_, ?_⟩
    · unfold album_detail_page
      rw [hget]
    · unfold update_album
      rw [hget]
    · intro hval
      unfold edit_album
      rw [if_neg (show ¬ (validate_album_data title artist ry cy ≠ [])
            from not_ne_iff.mpr hval)]
      have : update_album s.albums album_id user_id
          (buildAlbumData title artist genre ry rl co cond bc nt) =
          (s.albums, Except.error 404) := by
        unfold update_album
        rw [hget]
      rw [this]
    · unfold delete_album
      rw [hget]
    · unfold delete_album_endpoint
      have : delete_album s.albums album_id user_id =
          (s.albums, Except.error 404) := by
        unfold delete_album
        rw [hget]
      rw [this]
  · intro hex
    have hexb : ∃ a ∈ s.albums, (fun a : Album =>
        a.id == album_id && a.owner_id == user_id) a = true := by
      obtain ⟨a, ha, hid, how⟩ := hex
      exact ⟨a, ha, (albumPred_iff album_id user_id a).mpr ⟨hid, how⟩⟩
    cases hf : s.albums.find? (fun a => a.id == album_id && a.owner_id == user_id) with
    | none =>
      exfalso
      obtain ⟨a, ha, hpa⟩ := hexb
      exact absurd hpa (List.find?_eq_none.mp hf a ha)
    | some a =>
      have hmem := List.mem_of_find?_eq_some hf
      have hpab := @List.find?_some Album
        (fun b => b.id == album_id && b.owner_id == user_id) a s.albums hf
      have hpa := (albumPred_iff album_id user_id a).mp hpab
      have hget : get_album_by_id s.albums album_id user_id = Except.ok a := by
        unfold get_album_by_id
        rw [hf]
      refine ⟨a, hmem, hpa.1, hpa.2, hget, ?_, ?_, ?_⟩
      · unfold update_album
        rw [hget]
      · unfold delete_album
        rw [hget]
      · have hdel : delete_album s.albums album_id user_id =
            (removeFirst (fun b => b.id == album_id && b.owner_id == user_id)
              s.albums, Except.ok true) := by
          unfold delete_album
          rw [hget]
        unfold delete_album_endpoint
        rw [hdel]
        exact removeFirst_length _ s.albums hexb

/-- Witness for the amended C1: a cross-user lookup gets a 404 from the
CRUD layer while the delete endpoint redirects with the store unchanged,
and an owned album is updated successfully. -/
theorem claim_C1_witness :
    update_album [{ id := 1, title := "t", artist := "a", owner_id := 2 : Album }]
      1 1 {} = ([{ id := 1, title := "t", artist := "a", owner_id := 2 : Album }],
        Except.error 404) ∧
    delete_album_endpoint
      ⟨[{ id := 1, title := "t", artist := "a", owner_id := 2 : Album }], 2⟩ 1 1 =
      (⟨[{ id := 1, title := "t", artist := "a", owner_id := 2 : Album }], 2⟩, 303) ∧
    (update_album [{ id := 1, title := "t", artist := "a", owner_id := 1 : Album }]
      1 1 {}).2 = Except.ok
        (applyUpdate { id := 1, title := "t", artist := "a", owner_id := 1 : Album } {}) := by
  have h1 := (claim_C1_amended
    ⟨[{ id := 1, title := "t", artist := "a", owner_id := 2 : Album }], 2⟩ 1 1 {}
    "t" "a" none none none none none none none 2000).1 (by decide)
  have h2 := (claim_C1_amended
    ⟨[{ id := 1, title := "t", artist := "a", owner_id := 1 : Album }], 2⟩ 1 1 {}
    "t" "a" none none none none none none none 2000).2
    ⟨{ id := 1, title := "t", artist := "a", owner_id := 1 : Album },
      List.mem_singleton.mpr rfl, rfl, rfl⟩
  refine ⟨h1.2.2.1, h1.2.2.2.2.2, ?_⟩
  obtain ⟨a, ha, -, -, -, hupd, -, -⟩ := h2
  rw [List.mem_singleton] at ha
  rw [ha] at hupd
  exact hupd

/-- C5: an edit that submits values for only a subset of the fields
leaves every unsubmitted (absent / null) field at its previously stored
value; every non-null submitted field overwrites the stored value. -/
theorem claim_C5 (albums : List Album) (album_id user_id : Nat) (d : AlbumData)
    (a0 a' : Album)
    (hget : get_album_by_id albums album_id user_id = Except.ok a0)
    (hupd : (update_album albums album_id user_id d).2 = Except.ok a') :
    ((d.title = none → a'.title = a0.title) ∧
     (∀ v, d.title = some v → a'.title = v)) ∧
    ((d.artist = none → a'.artist = a0.artist) ∧
     (∀ v, d.artist = some v → a'.artist = v)) ∧
    ((d.genre = none → a'.genre = a0.genre) ∧
     (∀ v, d.genre = some v → a'.genre = some v)) ∧
    ((d.release_year = none → a'.release_year = a0.release_year) ∧
     (∀ v, d.release_year = some v → a'.release_year = some v)) ∧
    ((d.record_label = none → a'.record_label = a0.record_label) ∧
     (∀ v, d.record_label = some v → a'.record_label = some v)) ∧
    ((d.country = none → a'.country = a0.country) ∧
     (∀ v, d.country = some v → a'.country = some v)) ∧
    ((d.condition = none → a'.condition = a0.condition) ∧
     (∀ v, d.condition = some v → a'.condition = some v)) ∧
    ((d.barcode = none → a'.barcode = a0.barcode) ∧
     (∀ v, d.barcode = some v → a'.barcode = some v)) ∧
    ((d.notes = none → a'.notes = a0.notes) ∧
     (∀ v, d.notes = some v → a'.notes = some v)) := by
  have ha' : a' = applyUpdate a0 d := by
    unfold update_album at hupd
    rw [hget] at hupd
    injection hupd with h
    exact h.symm
  subst ha'
  refine ⟨⟨?_, ?_⟩, ⟨?_, ?_⟩, ⟨?_, ?_⟩, ⟨?_, ?_⟩, ⟨?_, ?_⟩, ⟨?_, ?_⟩, ⟨?_, ?_⟩,
    ⟨?_, ?_⟩, ⟨?_, ?_⟩⟩ <;>
    first
      | (intro h; simp [applyUpdate, h])
      | (intro v h; simp [applyUpdate, h])

/-- Witness for C5: editing only the title leaves the stored genre (and
the other fields) unchanged and overwrites the title. -/
theorem claim_C5_witness :
    (update_album [⟨1, "Old", "A", some "Rock", none, none, none, none, none, none, 0, 1⟩]
      1 1 ⟨some "New", none, none, none, none, none, none, none, none⟩).2 =
      Except.ok (applyUpdate
        ⟨1, "Old", "A", some "Rock", none, none, none, none, none, none, 0, 1⟩
        ⟨some "New", none, none, none, none, none, none, none, none⟩) ∧
    (applyUpdate ⟨1, "Old", "A", some "Rock", none, none, none, none, none, none, 0, 1⟩
      ⟨some "New", none, none, none, none, none, none, none, none⟩).genre = some "Rock" ∧
    (applyUpdate ⟨1, "Old", "A", some "Rock", none, none, none, none, none, none, 0, 1⟩
      ⟨some "New", none, none, none, none, none, none, none, none⟩).title = "New" := by
  have h := claim_C5
    [⟨1, "Old", "A", some "Rock", none, none, none, none, none, none, 0, 1⟩] 1 1
    ⟨some "New", none, none, none, none, none, none, none, none⟩
    ⟨1, "Old", "A", some "Rock", none, none, none, none, none, none, 0, 1⟩
    (applyUpdate ⟨1, "Old", "A", some "Rock", none, none, none, none, none, none, 0, 1⟩
      ⟨some "New", none, none, none, none, none, none, none, none⟩) rfl rfl
  exact ⟨rfl, by rw [h.2.2.1.1 rfl], h.1.2 "New" rfl⟩

/-! ## Claim C10: optional-field handling on create and edit -/

theorem stripOpt_none_or_empty (x : Option String)
    (h : x = none ∨ x = some "") : stripOpt x = none := by
  rcases h with rfl | rfl <;> rfl

theorem stripOpt_some_ne (v : String) (h : v ≠ "") :
    stripOpt (some v) = some (String.mk (pyStrip v.data)) := by
  show (if v.data.isEmpty then none else some (String.mk (pyStrip v.data))) =
    some (String.mk (pyStrip v.data))
  rw [if_neg]
  intro he
  rw [List.isEmpty_iff] at he
  exact h (String.ext he)

/-- Counterexample to C10 as stated: the claim says an edit can never
clear an optional field back to empty/null, but a whitespace-only
submission is truthy in Python, is stripped to the empty string, and is
then stored: editing an album whose genre is `"Rock"` with the genre
field `" "` stores genre `""`. -/
theorem claim_C10_counterexample :
    (edit_album ⟨[⟨1, "T", "A", some "Rock", none, none, none, none, none, none, 0, 1⟩], 2⟩
      1 1 "T" "A" (some " ") none none none none none none 2000).1.albums =
      [⟨1, "T", "A", some "", none, none, none, none, none, none, 0, 1⟩] := by
  rfl

/-- C10, amended: on create or edit, each optional string field (genre,
record_label, country, barcode, notes) submitted as empty or missing is
treated as null — stored as null on create, left unchanged on edit — and
an edit can never set such a field back to null; however a
whitespace-only submission is stripped to the empty string and stored,
so an edit can clear a field to the empty string (though never to null).
Stored title, artist and the stripped optional fields have surrounding
whitespace removed; condition is stored as submitted. -/
theorem claim_C10_amended (title artist : String) (genre : Option String)
    (ry : Option Int) (rl co cond bc nt : Option String) :
    (∀ s uid now,
      ((create_album s uid
          (buildAlbumData title artist genre ry rl co cond bc nt) now).2.title =
        String.mk (pyStrip title.data)) ∧
      ((create_album s uid
          (buildAlbumData title artist genre ry rl co cond bc nt) now).2.artist =
        String.mk (pyStrip artist.data)) ∧
      ((create_album s uid
          (buildAlbumData title artist genre ry rl co cond bc nt) now).2.genre =
        stripOpt genre) ∧
      ((create_album s uid
          (buildAlbumData title artist genre ry rl co cond bc nt) now).2.record_label =
        stripOpt rl) ∧
      ((create_album s uid
          (buildAlbumData title artist genre ry rl co cond bc nt) now).2.country =
        stripOpt co) ∧
      ((create_album s uid
          (buildAlbumData title artist genre ry rl co cond bc nt) now).2.barcode =
        stripOpt bc) ∧
      ((create_album s uid
          (buildAlbumData title artist genre ry rl co cond bc nt) now).2.notes =
        stripOpt nt) ∧
      ((create_album s uid
          (buildAlbumData title artist genre ry rl co cond bc nt) now).2.condition =
        cond) ∧
      ((create_album s uid
          (buildAlbumData title artist genre ry rl co cond bc nt) now).2.release_year =
        ry)) ∧
    (∀ albums album_id uid a0 a',
      get_album_by_id albums album_id uid = Except.ok a0 →
      (update_album albums album_id uid
        (buildAlbumData title artist genre ry rl co cond bc nt)).2 = Except.ok a' →
      (a'.title = String.mk (pyStrip title.data)) ∧
      (a'.artist = String.mk (pyStrip artist.data)) ∧
      (genre = none ∨ genre = some "" → a'.genre = a0.genre) ∧
      (a'.genre = none → a0.genre = none) ∧
      (rl = none ∨ rl = some "" → a'.record_label = a0.record_label) ∧
      (a'.record_label = none → a0.record_label = none) ∧
      (co = none ∨ co = some "" → a'.country = a0.country) ∧
      (a'.country = none → a0.country = none) ∧
      (bc = none ∨ bc = some "" → a'.barcode = a0.barcode) ∧
      (a'.barcode = none → a0.barcode = none) ∧
      (nt = none ∨ nt = some "" → a'.notes = a0.notes) ∧
      (a'.notes = none → a0.notes = none) ∧
      (cond = none → a'.condition = a0.condition) ∧
      (∀ v, cond = some v → a'.condition = some v)) := by
  constructor
  · intro s uid now
    exact ⟨rfl, rfl, rfl, rfl, rfl, rfl, rfl, rfl, rfl⟩
  · intro albums album_id uid a0 a' hget hupd
    have ha' : a' = applyUpdate a0
        (buildAlbumData title artist genre ry rl co cond bc nt) := by
      unfold update_album at hupd
      rw [hget] at hupd
      injection hupd with h
      exact h.symm
    subst ha'
    refine ⟨rfl, rfl, ?_, ?_, ?_, ?_, ?_, ?_, ?_, ?_, ?_, ?_, ?_, ?_⟩
    · intro h
      simp [applyUpdate, buildAlbumData, stripOpt_none_or_empty _ h]
    · intro h
      simp only [applyUpdate, buildAlbumData] at h
      revert h
      cases hg : stripOpt genre <;> simp
    · intro h
      simp [applyUpdate, buildAlbumData, stripOpt_none_or_empty _ h]
    · intro h
      simp only [applyUpdate, buildAlbumData] at h
      revert h
      cases hg : stripOpt rl <;> simp
    · intro h
      simp [applyUpdate, buildAlbumData, stripOpt_none_or_empty _ h]
    · intro h
      simp only [applyUpdate, buildAlbumData] at h
      revert h
      cases hg : stripOpt co <;> simp
    · intro h
      simp [applyUpdate, buildAlbumData, stripOpt_none_or_empty _ h]
    · intro h
      simp only [applyUpdate, buildAlbumData] at h
      revert h
      cases hg : stripOpt bc <;> simp
    · intro h
      simp [applyUpdate, buildAlbumData, stripOpt_none_or_empty _ h]
    · intro h
      simp only [applyUpdate, buildAlbumData] at h
      revert h
      cases hg : stripOpt nt <;> simp
    · intro h
      simp [applyUpdate, buildAlbumData, h]
    · intro v h
      simp [applyUpdate, buildAlbumData, h]

/-- Witness for the amended C10: creating with an empty genre stores a
null genre, and editing with a missing genre leaves the stored genre
unchanged while never nulling it. -/
theorem claim_C10_witness :
    (create_album ⟨[], 0⟩ 7
      (buildAlbumData "T" "A" (some "") none none none none none none) 5).2.genre =
      none ∧
    (applyUpdate ⟨1, "T", "A", some "Rock", none, none, none, none, none, none, 0, 1⟩
      (buildAlbumData " T " "A" none none none none none none none)).genre =
      some "Rock" := by
  constructor
  · rw [((claim_C10_amended "T" "A" (some "") none none none none none none).1
      ⟨[], 0⟩ 7 5).2.2.1]
    rfl
  · have h := (claim_C10_amended " T " "A" none none none none none none none).2
      [⟨1, "T", "A", some "Rock", none, none, none, none, none, none, 0, 1⟩] 1 1
      ⟨1, "T", "A", some "Rock", none, none, none, none, none, none, 0, 1⟩
      (applyUpdate ⟨1, "T", "A", some "Rock", none, none, none, none, none, none, 0, 1⟩
        (buildAlbumData " T " "A" none none none none none none none)) rfl rfl
    exact h.2.2.1 (Or.inl rfl)

/-! ## Claim C4: listing order and pagination -/

/-- C4: the album listing is an offset/limit window (skip, then limit)
over the user's albums sorted by creation timestamp descending: there is
a sorted permutation of the owner-filtered table of which the listing is
the `drop skip / take limit` window; the defaults are skip 0 and
limit 100; every returned album belongs to the user and the returned
page itself is ordered newest-first. -/
theorem claim_C4 (albums : List Album) (uid skip limit : Nat) :
    ∃ sorted : List Album,
      sorted.Perm (albums.filter (fun a => a.owner_id == uid)) ∧
      sorted.Pairwise createdDesc ∧
      get_albums albums uid skip limit = (sorted.drop skip).take limit ∧
      get_albums albums uid = (sorted.drop 0).take 100 ∧
      (∀ a ∈ get_albums albums uid skip limit, a.owner_id = uid) ∧
      (get_albums albums uid skip limit).Pairwise createdDesc := by
  refine ⟨List.insertionSort createdDesc (albums.filter (fun a => a.owner_id == uid)),
    List.perm_insertionSort _ _, List.sorted_insertionSort _ _, rfl, rfl, ?_, ?_⟩
  · intro a ha
    have hsub : (((List.insertionSort createdDesc
        (albums.filter (fun a => a.owner_id == uid))).drop skip).take limit).Sublist
        (List.insertionSort createdDesc (albums.filter (fun a => a.owner_id == uid))) :=
      (List.take_sublist _ _).trans (List.drop_sublist _ _)
    have h1 := hsub.subset ha
    have h2 := (List.perm_insertionSort createdDesc
      (albums.filter (fun a => a.owner_id == uid))).subset h1
    exact beq_iff_eq.mp (List.mem_filter.mp h2).2
  · exact List.Pairwise.sublist
      ((List.take_sublist _ _).trans (List.drop_sublist _ _))
      (List.sorted_insertionSort _ _)

/-- Witness for C4: on a concrete two-album table the page is
owner-scoped and sorted newest-first. -/
theorem claim_C4_witness :
    (∀ a ∈ get_albums
      [⟨1, "t", "a", none, none, none, none, none, none, none, 5, 1⟩,
       ⟨2, "u", "b", none, none, none, none, none, none, none, 9, 1⟩] 1,
      a.owner_id = 1) ∧
    (get_albums
      [⟨1, "t", "a", none, none, none, none, none, none, none, 5, 1⟩,
       ⟨2, "u", "b", none, none, none, none, none, none, none, 9, 1⟩] 1).Pairwise
      createdDesc := by
  obtain ⟨-, -, -, -, -, h5, h6⟩ := claim_C4
    [⟨1, "t", "a", none, none, none, none, none, none, none, 5, 1⟩,
     ⟨2, "u", "b", none, none, none, none, none, none, none, 9, 1⟩] 1 0 100
  exact ⟨h5, h6⟩

/-! ## Claim C3: search semantics -/

theorem lowerL_cons (x : Char) (xs : List Char) :
    lowerL (x :: xs) = x.toLower :: lowerL xs := rfl

theorem lowerL_append (a b : List Char) :
    lowerL (a ++ b) = lowerL a ++ lowerL b := List.map_append _ _ _

theorem ilikeMatch_cons_literal_nil (c : Char) (ps : List Char) (hc : c ≠ '%') :
    ilikeMatch (c :: ps) [] = false := by
  simp only [ilikeMatch]
  rw [if_neg hc]

theorem ilikeMatch_cons_literal (c : Char) (ps : List Char) (hc : c ≠ '%')
    (d : Char) (ds : List Char) :
    ilikeMatch (c :: ps) (d :: ds) =
      ((decide (c = '_') || (c.toLower == d.toLower)) && ilikeMatch ps ds) := by
  simp only [ilikeMatch]
  rw [if_neg hc]

theorem ilikeMatch_percent_cons (ps s : List Char) :
    ilikeMatch ('%' :: ps) s = true ↔ ∃ t, t <:+ s ∧ ilikeMatch ps t = true := by
  simp only [ilikeMatch]
  rw [if_pos trivial, List.any_eq_true]
  constructor
  · rintro ⟨t, ht, hm⟩
    exact ⟨t, (List.mem_tails _ _).mp ht, hm⟩
  · rintro ⟨t, ht, hm⟩
    exact ⟨t, (List.mem_tails _ _).mpr ht, hm⟩

theorem ilikeMatch_percent_nil (s : List Char) : ilikeMatch ['%'] s = true :=
  (ilikeMatch_percent_cons [] s).mpr ⟨[], List.nil_suffix, rfl⟩

theorem ilikeMatch_literal_percent (q : List Char)
    (hq : ∀ c ∈ q, c ≠ '%' ∧ c ≠ '_') :
    ∀ s, (ilikeMatch (q ++ ['%']) s = true ↔ ∃ t, lowerL s = lowerL q ++ t) := by
  induction q with
  | nil =>
    intro s
    constructor
    · intro _
      exact ⟨lowerL s, rfl⟩
    · intro _
      exact ilikeMatch_percent_nil s
  | cons c cs ih =>
    intro s
    have hc := hq c (List.mem_cons_self c cs)
    have ih' := ih (fun x hx => hq x (List.mem_cons_of_mem c hx))
    cases s with
    | nil =>
      rw [show (c :: cs) ++ ['%'] = c :: (cs ++ ['%']) from rfl]
      rw [ilikeMatch_cons_literal_nil c _ hc.1]
      constructor
      · intro h
        cases h
      · rintro ⟨t, ht⟩
        rw [lowerL_cons] at ht
        cases ht
    | cons d ds =>
      rw [show (c :: cs) ++ ['%'] = c :: (cs ++ ['%']) from rfl]
      rw [ilikeMatch_cons_literal c _ hc.1 d ds]
      rw [Bool.and_eq_true, Bool.or_eq_true]
      rw [ih' ds]
      constructor
      · rintro ⟨hor, t, ht⟩
        have hcd : c.toLower = d.toLower := by
          rcases hor with hfalse | hbeq
          · rw [decide_eq_false hc.2] at hfalse
            cases hfalse
          · exact beq_iff_eq.mp hbeq
        refine ⟨t, ?_⟩
        rw [lowerL_cons, lowerL_cons, List.cons_append, ← hcd, ht]
      · rintro ⟨t, ht⟩
        rw [lowerL_cons, lowerL_cons, List.cons_append] at ht
        injection ht with h1 h2
        exact ⟨Or.inr (beq_iff_eq.mpr h1.symm), t, h2⟩

theorem ilikeMatch_pat_iff (q : List Char) (hq : ∀ c ∈ q, c ≠ '%' ∧ c ≠ '_')
    (l : List Char) :
    ilikeMatch ('%' :: (q ++ ['%'])) l = true ↔
    subIn (lowerL q) (lowerL l) = true := by
  rw [ilikeMatch_percent_cons, subIn_iff]
  constructor
  · rintro ⟨t, ⟨s1, rfl⟩, hm⟩
    rw [ilikeMatch_literal_percent q hq t] at hm
    obtain ⟨u, hu⟩ := hm
    refine ⟨lowerL s1, u, ?_⟩
    rw [lowerL_append, hu, List.append_assoc]
  · rintro ⟨s1, u, hu⟩
    refine ⟨l.drop s1.length, List.drop_suffix _ _, ?_⟩
    rw [ilikeMatch_literal_percent q hq]
    refine ⟨u, ?_⟩
    have hmd : lowerL (l.drop s1.length) = (lowerL l).drop s1.length := by
      rw [lowerL, lowerL, List.map_drop]
    rw [hmd, hu, List.append_assoc]
    exact List.drop_left s1 (lowerL q ++ u)

theorem bool_eq_of_iff {a b : Bool} (h : a = true ↔ b = true) : a = b := by
  cases a <;> cases b <;> simp_all

theorem ilike_eq_containsCI (x q : String)
    (hq : ∀ c ∈ q.data, c ≠ '%' ∧ c ≠ '_') :
    ilike x (likePat q) = containsCI x q :=
  bool_eq_of_iff (ilikeMatch_pat_iff q.data hq x.data)

/-- Counterexample to C3 as stated: the query is interpolated unescaped
into the SQL `ILIKE` pattern, so its wildcards keep their meaning: the
query `"_"` matches the album titled `"abc"` (pattern `%_%`) although
`"_"` is not a substring of any of its fields, so the search is not
substring search. -/
theorem claim_C3_counterexample :
    search_albums [⟨1, "abc", "x", none, none, none, none, none, none, none, 0, 1⟩]
      1 "_" =
      [⟨1, "abc", "x", none, none, none, none, none, none, none, 0, 1⟩] ∧
    spec_search [⟨1, "abc", "x", none, none, none, none, none, none, none, 0, 1⟩]
      1 "_" = [] := by
  exact ⟨rfl, rfl⟩

/-- C3, amended: for every query containing no SQL LIKE metacharacter
(`%` or `_`), the search returns exactly those albums owned by the user
whose title, artist or genre contains the query as a case-insensitive
substring (a null genre matches nothing); queries containing `%` or `_`
are instead interpreted as LIKE wildcards, since the query is
interpolated into the pattern unescaped. -/
theorem claim_C3_amended (albums : List Album) (uid : Nat) (q : String)
    (hq : ∀ c ∈ q.data, c ≠ '%' ∧ c ≠ '_') :
    search_albums albums uid q = spec_search albums uid q ∧
    (∀ a, a ∈ search_albums albums uid q ↔
      (a ∈ albums ∧ a.owner_id = uid ∧
        (containsCI a.title q || containsCI a.artist q ||
         (match a.genre with
          | some g => containsCI g q
          | none => false)) = true)) := by
  have hpt : ∀ x : String, ilike x (likePat q) = containsCI x q :=
    fun x => ilike_eq_containsCI x q hq
  have heq : search_albums albums uid q = spec_search albums uid q := by
    unfold search_albums spec_search
    apply List.filter_congr
    intro a ha
    rw [hpt a.title, hpt a.artist]
    cases a.genre with
    | none => rfl
    | some g =>
      show (a.owner_id == uid &&
        (containsCI a.title q || containsCI a.artist q || ilike g (likePat q))) =
        (a.owner_id == uid &&
        (containsCI a.title q || containsCI a.artist q || containsCI g q))
      rw [hpt g]
  refine ⟨heq, fun a => ?_⟩
  rw [heq]
  unfold spec_search
  rw [List.mem_filter, Bool.and_eq_true, beq_iff_eq]

/-- Witness for the amended C3: a lower-case substring of the title
finds the album; a non-matching query returns the empty result. -/
theorem claim_C3_witness :
    search_albums [⟨1, "Abbey Road", "The Beatles", some "Rock",
      none, none, none, none, none, none, 0, 1⟩] 1 "road" =
      [⟨1, "Abbey Road", "The Beatles", some "Rock",
        none, none, none, none, none, none, 0, 1⟩] ∧
    search_albums [⟨1, "Abbey Road", "The Beatles", some "Rock",
      none, none, none, none, none, none, 0, 1⟩] 1 "zzz" = [] := by
  constructor
  · exact ((claim_C3_amended
      [⟨1, "Abbey Road", "The Beatles", some "Rock",
        none, none, none, none, none, none, 0, 1⟩] 1 "road" (by decide)).1).trans rfl
  · exact ((claim_C3_amended
      [⟨1, "Abbey Road", "The Beatles", some "Rock",
        none, none, none, none, none, none, 0, 1⟩] 1 "zzz" (by decide)).1).trans rfl

/-! ## Claim C2: ownership invariant over all reachable states -/

theorem updateFirst_mem (p : Album → Bool) (f : Album → Album) :
    ∀ (l : List Album) (a' : Album), a' ∈ updateFirst p f l →
    a' ∈ l ∨ ∃ b ∈ l, a' = f b := by
  intro l
  induction l with
  | nil =>
    intro a' h
    cases h
  | cons x xs ih =>
    intro a' h
    by_cases hx : p x = true
    · rw [updateFirst, if_pos hx] at h
      rcases List.mem_cons.mp h with rfl | hmem
      · exact Or.inr ⟨x, List.mem_cons_self x xs, rfl⟩
      · exact Or.inl (List.mem_cons_of_mem x hmem)
    · rw [updateFirst, if_neg hx] at h
      rcases List.mem_cons.mp h with rfl | hmem
      · exact Or.inl (List.mem_cons_self _ _)
      · rcases ih a' hmem with h1 | ⟨b, hb, hfb⟩
        · exact Or.inl (List.mem_cons_of_mem x h1)
        · exact Or.inr ⟨b, List.mem_cons_of_mem x hb, hfb⟩

theorem removeFirst_subset (p : Album → Bool) :
    ∀ (l : List Album) (a : Album), a ∈ removeFirst p l → a ∈ l := by
  intro l
  induction l with
  | nil =>
    intro a h
    cases h
  | cons x xs ih =>
    intro a h
    by_cases hx : p x = true
    · rw [removeFirst, if_pos hx] at h
      exact List.mem_cons_of_mem x h
    · rw [removeFirst, if_neg hx] at h
      rcases List.mem_cons.mp h with rfl | hmem
      · exact List.mem_cons_self _ _
      · exact List.mem_cons_of_mem x (ih a hmem)

theorem update_album_pairs (albums : List Album) (album_id uid : Nat) (d : AlbumData) :
    ∀ a' ∈ (update_album albums album_id uid d).1,
    ∃ b ∈ albums, a'.id = b.id ∧ a'.owner_id = b.owner_id := by
  intro a' ha'
  unfold update_album at ha'
  cases hres : get_album_by_id albums album_id uid with
  | error e =>
    rw [hres] at ha'
    exact ⟨a', ha', rfl, rfl⟩
  | ok a0 =>
    rw [hres] at ha'
    rcases updateFirst_mem _ _ albums a' ha' with hmem | ⟨b, hb, hfb⟩
    · exact ⟨a', hmem, rfl, rfl⟩
    · exact ⟨b, hb, by rw [hfb]; exact rfl, by rw [hfb]; exact rfl⟩

theorem ownerInv_step (s : Store) (log : List (Nat × Nat)) (op : Op)
    (h : OwnerInv s log) : OwnerInv (stepOp s op) (stepLog s log op) := by
  obtain ⟨hmem, hlog, hnd⟩ := h
  cases op with
  | create uid d now =>
    refine ⟨?_, ?_, ?_⟩
    · intro a ha
      have ha' : a ∈ s.albums ++
          [(create_album s uid d now).2] := ha
      rcases List.mem_append.mp ha' with hold | hnew
      · obtain ⟨h1, h2⟩ := hmem a hold
        refine ⟨List.mem_append.mpr (Or.inl h1), ?_⟩
        show a.id < s.nextId + 1
        omega
      · rw [List.mem_singleton] at hnew
        subst hnew
        refine ⟨List.mem_append.mpr (Or.inr (List.mem_singleton.mpr rfl)), ?_⟩
        show s.nextId < s.nextId + 1
        omega
    · intro pr hpr
      have hpr' : pr ∈ log ++ [(s.nextId, uid)] := hpr
      rcases List.mem_append.mp hpr' with hold | hnew
      · have := hlog pr hold
        show pr.1 < s.nextId + 1
        omega
      · rw [List.mem_singleton] at hnew
        subst hnew
        show s.nextId < s.nextId + 1
        omega
    · show ((log ++ [(s.nextId, uid)]).map Prod.fst).Nodup
      rw [List.map_append]
      rw [List.nodup_append]
      refine ⟨hnd, List.nodup_singleton _, ?_⟩
      intro i hi hi'
      rw [List.map_singleton, List.mem_singleton] at hi'
      subst hi'
      obtain ⟨pr, hpr, hfst⟩ := List.mem_map.mp hi
      have := hlog pr hpr
      omega
  | update uid album_id d =>
    refine ⟨?_, hlog, hnd⟩
    intro a ha
    have ha' : a ∈ (update_album s.albums album_id uid d).1 := ha
    obtain ⟨b, hb, hid, how⟩ := update_album_pairs s.albums album_id uid d a ha'
    obtain ⟨h1, h2⟩ := hmem b hb
    rw [hid, how]
    exact ⟨h1, h2⟩
  | delete uid album_id =>
    refine ⟨?_, hlog, hnd⟩
    intro a ha
    have ha' : a ∈ (delete_album s.albums album_id uid).1 := ha
    have hmem' : a ∈ s.albums := by
      revert ha'
      unfold delete_album
      cases hres : get_album_by_id s.albums album_id uid with
      | error e =>
        intro ha'
        exact ha'
      | ok a0 =>
        intro ha'
        exact removeFirst_subset _ s.albums a ha'
    exact hmem a hmem'

theorem ownerInv_execFrom (ops : List Op) :
    ∀ (s : Store) (log : List (Nat × Nat)), OwnerInv s log →
    OwnerInv (execFrom s log ops).1 (execFrom s log ops).2 := by
  induction ops with
  | nil =>
    intro s log h
    exact h
  | cons op rest ih =>
    intro s log h
    exact ih (stepOp s op) (stepLog s log op) (ownerInv_step s log op h)

theorem log_lookup_unique :
    ∀ (log : List (Nat × Nat)), (log.map Prod.fst).Nodup →
    ∀ {i u v : Nat}, (i, u) ∈ log → (i, v) ∈ log → u = v := by
  intro log
  induction log with
  | nil =>
    intro _ i u v h1 _
    cases h1
  | cons pr rest ih =>
    intro hnd i u v h1 h2
    rw [List.map_cons, List.nodup_cons] at hnd
    rcases List.mem_cons.mp h1 with rfl | h1' <;>
      rcases List.mem_cons.mp h2 with he | h2'
    · injection he with _ hv
      exact hv.symm
    · exact absurd (List.mem_map.mpr ⟨(i, v), h2', rfl⟩) hnd.1
    · rw [← he] at hnd
      exact absurd (List.mem_map.mpr ⟨(i, u), h1', rfl⟩) hnd.1
    · exact ih hnd.2 h1' h2'

/-- C2: every album created through `create_album` records the
authenticated requester as its owner, and executing any sequence of
create/update/delete operations from the empty database (all exposed
store-mutating operations) yields a state in which every album carries a
creation-log entry with its current owner, and that log determines the
creator of an id uniquely — each album's owner is exactly the user who
created it, and no operation ever rewrites an owner. -/
theorem claim_C2 (ops : List Op) :
    (∀ (s : Store) (uid : Nat) (d : AlbumData) (now : Nat),
      (create_album s uid d now).2.owner_id = uid ∧
      (create_album s uid d now).1.albums = s.albums ++ [(create_album s uid d now).2]) ∧
    (∀ a ∈ (execTrace ops).1.albums,
      (a.id, a.owner_id) ∈ (execTrace ops).2 ∧
      ∀ u, (a.id, u) ∈ (execTrace ops).2 → u = a.owner_id) := by
  constructor
  · intro s uid d now
    exact ⟨rfl, rfl⟩
  · intro a ha
    have hinit : OwnerInv ⟨[], 0⟩ [] := by
      refine ⟨?_, ?_, List.nodup_nil⟩
      · intro a' ha'
        cases ha'
      · intro pr hpr
        cases hpr
    obtain ⟨hmem, hlog, hnd⟩ := ownerInv_execFrom ops ⟨[], 0⟩ [] hinit
    have h1 := hmem a ha
    exact ⟨h1.1, fun u hu => log_lookup_unique (execTrace ops).2 hnd hu h1.1⟩

/-- Witness for C2: after one create request by user 7, the stored album
is logged with owner 7, and the direct create contract holds. -/
theorem claim_C2_witness :
    (create_album ⟨[], 0⟩ 7
      ⟨some "T", some "A", none, none, none, none, none, none, none⟩ 3).2.owner_id = 7 ∧
    ((0 : Nat), (7 : Nat)) ∈ (execTrace
      [Op.create 7 ⟨some "T", some "A", none, none, none, none, none, none, none⟩ 3]).2 := by
  constructor
  · exact ((claim_C2 []).1 ⟨[], 0⟩ 7
      ⟨some "T", some "A", none, none, none, none, none, none, none⟩ 3).1
  · have h := (claim_C2
      [Op.create 7 ⟨some "T", some "A", none, none, none, none, none, none, none⟩ 3]).2
      ⟨0, "T", "A", none, none, none, none, none, none, none, 3, 7⟩ (by decide)
    exact h.1
